import Mathlib

set_option autoImplicit false

namespace AsyncAPI

/-! Shallow embedding of the AsyncAPI 2.x Spectral ruleset module
(`v2CoreRuleset`, `v2SchemasRuleset`, `v2RecommendedRuleset`) together with
models of the validator functions it binds.  The ruleset declarations are
translated directly from the source; the validator functions themselves are
imported by the source from modules that are not part of this repository
snapshot, so they are modelled from the specification (each such definition
carries a doc comment starting with `Modelled from the spec:`). -/

/-- Severity of a rule or diagnostic.  Spectral rules that declare no
severity default to `warn`. -/
inductive Severity where
  | error
  | warn
  | info
deriving DecidableEq

/-- A diagnostic produced by the engine: rule identifier, severity, and the
document path it is reported at. -/
structure Diagnostic where
  ruleId : String
  severity : Severity
  path : List String
deriving DecidableEq

/-- Modelled from the spec: the `aas2All` format list imported by the source
from `../formats` (not part of this snapshot).  It holds one format predicate
per supported AsyncAPI 2.x minor version, in ascending order; the source's
comment on `aas2AllFormats.slice(4)` ("from 2.4.0") fixes the indexing.  Each
format is identified here by the version it detects. -/
def aas2AllVersions : List String :=
  ["2.0.0", "2.1.0", "2.2.0", "2.3.0", "2.4.0", "2.5.0", "2.6.0"]

/-- A rule as declared in the ruleset tables: identifier (the key of the
`rules` map), severity, `recommended` flag, the optional `resolved` flag
(`none` when the declaration does not mention it; Spectral then resolves the
document), the applicable formats (defaulting to the ruleset-level
`[...aas2AllFormats]`), and the `given` selector strings.  Fields not needed
by any verified property (description, message template, bound function and
its options) are omitted. -/
structure Rule where
  id : String
  severity : Severity := Severity.warn
  recommended : Bool
  resolved : Option Bool := none
  formats : List String := aas2AllVersions
  given : List String
deriving DecidableEq

/-- The `given` selectors of `asyncapi2-schema-default`, verbatim from the
source (apostrophes written as `\x27`). -/
def schemaDefaultGiven : List String :=
  [ "$.channels[*][publish,subscribe][?(@property === \x27message\x27 && @.schemaFormat === void 0)].payload.default^"
  , "$.channels.*.parameters.*.schema.default^"
  , "$.components.channels[*][publish,subscribe][?(@property === \x27message\x27 && @.schemaFormat === void 0)].payload.default^"
  , "$.components.channels.*.parameters.*.schema.default^"
  , "$.components.schemas.*.default^"
  , "$.components.parameters.*.schema.default^"
  , "$.components.messages[?(@.schemaFormat === void 0)].payload.default^"
  , "$.components.messageTraits[?(@.schemaFormat === void 0)].payload.default^" ]

/-- The `given` selectors of `asyncapi2-schema-examples`, verbatim from the
source. -/
def schemaExamplesGiven : List String :=
  [ "$.channels[*][publish,subscribe][?(@property === \x27message\x27 && @.schemaFormat === void 0)].payload.examples^"
  , "$.channels.*.parameters.*.schema.examples^"
  , "$.components.channels[*][publish,subscribe][?(@property === \x27message\x27 && @.schemaFormat === void 0)].payload.examples^"
  , "$.components.channels.*.parameters.*.schema.examples^"
  , "$.components.schemas.*.examples^"
  , "$.components.parameters.*.schema.examples^"
  , "$.components.messages[?(@.schemaFormat === void 0)].payload.examples^"
  , "$.components.messageTraits[?(@.schemaFormat === void 0)].payload.examples^" ]

/-- The `v2CoreRuleset.rules` table, in declaration order. -/
def v2CoreRuleset : List Rule :=
  [ { id := "asyncapi2-server-security", severity := Severity.error,
      recommended := true, given := ["$.servers.*.security.*"] }
  , { id := "asyncapi2-server-variables", severity := Severity.error,
      recommended := true, given := ["$.servers.*", "$.components.servers.*"] }
  , { id := "asyncapi2-channel-no-query-nor-fragment", severity := Severity.error,
      recommended := true, given := ["$.channels"] }
  , { id := "asyncapi2-channel-parameters", severity := Severity.error,
      recommended := true, given := ["$.channels.*"] }
  , { id := "asyncapi2-channel-servers", severity := Severity.error,
      recommended := true, given := ["$"] }
  , { id := "asyncapi2-operation-operationId-uniqueness", severity := Severity.error,
      recommended := true, given := ["$"] }
  , { id := "asyncapi2-operation-security", severity := Severity.error,
      recommended := true, given := ["$.channels[*][publish,subscribe].security.*"] }
  , { id := "asyncapi2-message-examples", severity := Severity.error,
      recommended := true,
      given :=
        [ "$.channels.*.[publish,subscribe].message"
        , "$.channels.*.[publish,subscribe].message.oneOf.*"
        , "$.components.channels.*.[publish,subscribe].message"
        , "$.components.channels.*.[publish,subscribe].message.oneOf.*"
        , "$.components.messages.*"
        , "$.channels.*.[publish,subscribe].message.traits.*"
        , "$.channels.*.[publish,subscribe].message.oneOf.*.traits.*"
        , "$.components.channels.*.[publish,subscribe].message.traits.*"
        , "$.components.channels.*.[publish,subscribe].message.oneOf.*.traits.*"
        , "$.components.messages.*.traits.*"
        , "$.components.messageTraits.*" ] }
  , { id := "asyncapi2-message-messageId-uniqueness", severity := Severity.error,
      recommended := true, given := ["$"] }
  , { id := "asyncapi2-tags-uniqueness", severity := Severity.error,
      recommended := true,
      given :=
        [ "$.tags"
        , "$.channels.*.[publish,subscribe].tags"
        , "$.components.channels.*.[publish,subscribe].tags"
        , "$.channels.*.[publish,subscribe].traits.*.tags"
        , "$.components.channels.*.[publish,subscribe].traits.*.tags"
        , "$.components.operationTraits.*.tags"
        , "$.channels.*.[publish,subscribe].message.tags"
        , "$.channels.*.[publish,subscribe].message.oneOf.*.tags"
        , "$.components.channels.*.[publish,subscribe].message.tags"
        , "$.components.channels.*.[publish,subscribe].message.oneOf.*.tags"
        , "$.components.messages.*.tags"
        , "$.channels.*.[publish,subscribe].message.traits.*.tags"
        , "$.channels.*.[publish,subscribe].message.oneOf.*.traits.*.tags"
        , "$.components.channels.*.[publish,subscribe].message.traits.*.tags"
        , "$.components.channels.*.[publish,subscribe].message.oneOf.*.traits.*.tags"
        , "$.components.messages.*.traits.*.tags"
        , "$.components.messageTraits.*.tags" ] }
  ]

/-- The ruleset returned by `v2SchemasRuleset`.  The source takes a `Parser`
argument and binds the rule body `asyncApi2SchemaParserRule(parser)` (defined
outside this snapshot) under the key `asyncapi2-schemas`; the map key fixes
that rule's identifier regardless of the external body, which is the
`schemasRuleBody` parameter here. -/
def v2SchemasRuleset (schemasRuleBody : Rule) : List Rule :=
  [ { schemasRuleBody with id := "asyncapi2-schemas" }
  , { id := "asyncapi2-schema-default", severity := Severity.error,
      recommended := true, given := schemaDefaultGiven }
  , { id := "asyncapi2-schema-examples", severity := Severity.error,
      recommended := true, given := schemaExamplesGiven }
  ]

/-- The `v2RecommendedRuleset.rules` table, in declaration order.  Only
`asyncapi2-message-messageId` overrides the formats
(`aas2AllFormats.slice(4)`, i.e. from 2.4.0), and only
`asyncapi2-unused-securityScheme` declares `resolved: false` and an explicit
severity (`info`). -/
def v2RecommendedRuleset : List Rule :=
  [ { id := "asyncapi2-tags", recommended := true, given := ["$"] }
  , { id := "asyncapi2-server-no-empty-variable", recommended := true,
      given := ["$.servers[*].url"] }
  , { id := "asyncapi2-server-no-trailing-slash", recommended := true,
      given := ["$.servers[*].url"] }
  , { id := "asyncapi2-channel-no-empty-parameter", recommended := true,
      given := ["$.channels"] }
  , { id := "asyncapi2-channel-no-trailing-slash", recommended := true,
      given := ["$.channels"] }
  , { id := "asyncapi2-operation-operationId", recommended := true,
      given := ["$.channels[*][publish,subscribe]",
                "$.components.channels[*][publish,subscribe]"] }
  , { id := "asyncapi2-message-messageId", recommended := true,
      formats := aas2AllVersions.drop 4,
      given :=
        [ "$.channels.*.[publish,subscribe][?(@property === \"message\" && @.oneOf == void 0)]"
        , "$.channels.*.[publish,subscribe].message.oneOf.*"
        , "$.components.channels.*.[publish,subscribe][?(@property === \"message\" && @.oneOf == void 0)]"
        , "$.components.channels.*.[publish,subscribe].message.oneOf.*"
        , "$.components.messages.*" ] }
  , { id := "asyncapi2-unused-securityScheme", severity := Severity.info,
      recommended := true, resolved := some false, given := ["$"] }
  ]

/-- Boolean membership of a string in a list (used by the validator models). -/
def member (x : String) : List String → Bool
  | [] => false
  | y :: rest => if x = y then true else member x rest

/-- A violation reported by the template/variable reconciliation validators. -/
inductive VarViolation where
  | undefinedVariable (name : String)
  | redundantVariable (name : String)
deriving DecidableEq

/-- Modelled from the spec: brace extraction of `\x7btoken\x7d` placeholders from a
URL or channel-address template.  Tokens are the maximal runs between an
opening brace and the next closing brace; empty tokens are skipped (an empty
substitution pattern is the concern of a separate pattern rule). -/
def extractTokensAux : List Char → Option (List Char) → List String
  | [], _ => []
  | c :: rest, none =>
      if c = '\x7b' then extractTokensAux rest (some [])
      else extractTokensAux rest none
  | c :: rest, some acc =>
      if c = '\x7d' then
        if acc.isEmpty then extractTokensAux rest none
        else String.mk acc.reverse :: extractTokensAux rest none
      else extractTokensAux rest (some (c :: acc))

/-- The placeholder tokens of a template, in order of occurrence. -/
def extractTokens (tpl : String) : List String :=
  extractTokensAux tpl.data none

/-- Modelled from the spec: the common core of the `serverVariables` and
`channelParameters` validators (neither function is part of this snapshot).
Given the tokens occurring in the template and the declared variable or
parameter names, it reports one `undefinedVariable` violation per token
occurrence absent from the declared map and one `redundantVariable` violation
per declared key never referenced in the template. -/
def reconcile (tokens declared : List String) : List VarViolation :=
  (tokens.filter (fun t => !(member t declared))).map VarViolation.undefinedVariable
    ++ (declared.filter (fun k => !(member k tokens))).map VarViolation.redundantVariable

/-- Modelled from the spec: the `serverVariables` validator, applied to a
server's `url` template and the keys of its declared `variables` map. -/
def serverVariables (url : String) (declaredVariables : List String) : List VarViolation :=
  reconcile (extractTokens url) declaredVariables

/-- Modelled from the spec: the `channelParameters` validator, applied to a
channel's address template and the keys of its declared `parameters` map.
Whether a declared parameter carries a `schema` is irrelevant to
reconciliation, so parameters are represented by their names alone. -/
def channelParameters (address : String) (declaredParameters : List String) : List VarViolation :=
  reconcile (extractTokens address) declaredParameters

/-- A declared security scheme: its component name and its `type` field. -/
structure SecurityScheme where
  name : String
  type : String
deriving DecidableEq

/-- A violation reported by the security validator. -/
inductive SecViolation where
  | undefinedReference (name : String)
  | disallowedScopes (name : String)
deriving DecidableEq

/-- Look a requirement name up among the document's declared security
schemes. -/
def lookupScheme (schemes : List SecurityScheme) (n : String) : Option SecurityScheme :=
  schemes.find? (fun s => decide (s.name = n))

/-- Scheme types on which a non-empty scope list is legal. -/
def scopesAllowed (t : String) : Bool :=
  decide (t = "oauth2") || decide (t = "openIdConnect")

/-- Modelled from the spec: the `security` validator bound by
`asyncapi2-server-security` and `asyncapi2-operation-security` (not part of
this snapshot).  A matched security-requirement object is a list of
`(scheme name, scope list)` entries; each entry whose name has no matching
declared scheme yields an `undefinedReference` violation, and each entry with
a non-empty scope list whose referenced scheme's type is neither `oauth2` nor
`openIdConnect` yields a `disallowedScopes` violation.  All mismatches are
returned as data; the function is total and never throws.  `entryViolations`
gives the violations of one entry, `security` those of the whole requirement
object. -/
def entryViolations (schemes : List SecurityScheme) (e : String × List String) :
    List SecViolation :=
  match lookupScheme schemes e.1 with
  | none => [SecViolation.undefinedReference e.1]
  | some s =>
      if !e.2.isEmpty && !scopesAllowed s.type then [SecViolation.disallowedScopes e.1]
      else []

def security (schemes : List SecurityScheme) :
    List (String × List String) → List SecViolation
  | [] => []
  | e :: rest => entryViolations schemes e ++ security schemes rest

/-- Modelled from the spec: the duplicate-collection pass of the uniqueness
validators.  Walking the occurrences in document order with the set of values
already seen, every occurrence of an already-seen value is reported (the
first occurrence of each value is exempt). -/
def collectDuplicates (seen : List String) : List (List String × String) → List (List String)
  | [] => []
  | occ :: rest =>
      if member occ.2 seen then occ.1 :: collectDuplicates seen rest
      else collectDuplicates (occ.2 :: seen) rest

/-- Modelled from the spec: the `operationIdUniqueness` validator (not part
of this snapshot).  The whole-document traversal that gathers every
`operationId` occurrence (channels and `components.channels`) is abstracted
as its result: the list of `(path, operationId)` occurrences in document
order.  Each occurrence of a value after that value's first occurrence
yields one error diagnostic at the occurrence's path. -/
def operationIdUniqueness (occurrences : List (List String × String)) : List Diagnostic :=
  (collectDuplicates [] occurrences).map fun p =>
    { ruleId := "asyncapi2-operation-operationId-uniqueness",
      severity := Severity.error, path := p }

/-- A JSON value, as handed to the schema-conformance collaborator. -/
inductive Json where
  | null
  | boolean (b : Bool)
  | number (n : Int)
  | string (s : String)
  | array (items : List Json)
  | object (fields : List (String × Json))

/-- First binding of a key in a JSON object's field list. -/
def lookupField : List (String × Json) → String → Option Json
  | [], _ => none
  | f :: rest, k => if f.1 = k then some f.2 else lookupField rest k

/-- Does a JSON value conform to a JSON-Schema primitive `type` name? -/
def jsonTypeMatches : String → Json → Bool
  | "integer", Json.number _ => true
  | "number", Json.number _ => true
  | "string", Json.string _ => true
  | "boolean", Json.boolean _ => true
  | "null", Json.null => true
  | "array", Json.array _ => true
  | "object", Json.object _ => true
  | _, _ => false

/-- A conformance failure reported by the external checker: the failing
keyword path and a message. -/
structure SchemaViolation where
  keywordPath : List String
  message : String
deriving DecidableEq

/-- Modelled from the spec: the external JSON-Schema conformance checker
`validateInstance(schema, instance) -> list of SchemaViolation` (an external
collaborator, not part of this snapshot).  Only the behavior the spec pins
down is modelled: a schema whose `type` keyword names a primitive type the
instance does not inhabit yields one violation at keyword path `type`
(numbers are integers in this model). -/
def validateInstance (schema : Json) (inst : Json) : List SchemaViolation :=
  match schema with
  | Json.object fields =>
      match lookupField fields "type" with
      | some (Json.string t) =>
          if jsonTypeMatches t inst then []
          else [{ keywordPath := ["type"], message := "type mismatch" }]
      | _ => []
  | _ => []

/-- Modelled from the spec: the checker invocations produced for one matched
message object by the `asyncapi2-schema-default` message selectors
(`[?(@.schemaFormat === void 0)].payload.default^`) together with the
`schemaValidation` function in `default` mode.  A message with a
`schemaFormat` override is filtered out by the selector, so the checker is
never invoked on it; otherwise the payload schema is checked against its
`default` value, if any. -/
def schemaDefaultInvocations (message : Json) : List (Json × Json) :=
  match message with
  | Json.object fields =>
      if (lookupField fields "schemaFormat").isSome then []
      else
        match lookupField fields "payload" with
        | some (Json.object pf) =>
            match lookupField pf "default" with
            | some d => [(Json.object pf, d)]
            | none => []
        | _ => []
  | _ => []

/-- Modelled from the spec: the checker invocations for one matched message
object under the `asyncapi2-schema-examples` selectors with `schemaValidation`
in `examples` mode: each entry of the payload's `examples` array is checked
against the payload schema, unless a `schemaFormat` override filters the
message out. -/
def schemaExamplesInvocations (message : Json) : List (Json × Json) :=
  match message with
  | Json.object fields =>
      if (lookupField fields "schemaFormat").isSome then []
      else
        match lookupField fields "payload" with
        | some (Json.object pf) =>
            match lookupField pf "examples" with
            | some (Json.array es) => es.map fun e => (Json.object pf, e)
            | _ => []
        | _ => []
  | _ => []

/-- Every conformance failure reported by the checker on a
`asyncapi2-schema-default` invocation, surfaced as an error-severity
diagnostic attributing the failing keyword path. -/
def schemaDefaultDiagnostics (message : Json) : List Diagnostic :=
  (schemaDefaultInvocations message).flatMap fun si =>
    (validateInstance si.1 si.2).map fun v =>
      { ruleId := "asyncapi2-schema-default", severity := Severity.error,
        path := v.keywordPath }

/-- Every conformance failure reported by the checker on a
`asyncapi2-schema-examples` invocation, surfaced as an error-severity
diagnostic. -/
def schemaExamplesDiagnostics (message : Json) : List Diagnostic :=
  (schemaExamplesInvocations message).flatMap fun si =>
    (validateInstance si.1 si.2).map fun v =>
      { ruleId := "asyncapi2-schema-examples", severity := Severity.error,
        path := v.keywordPath }

/-- Modelled from the spec: the `unusedSecuritySchemes` validator (not part
of this snapshot).  Given the declared scheme names from
`components.securitySchemes` and the set of names referenced anywhere in the
document, every declared name that is never referenced yields one
info-severity diagnostic at the scheme's declaration path. -/
def unusedSecuritySchemes (declared referenced : List String) : List Diagnostic :=
  (declared.filter (fun n => !(member n referenced))).map fun n =>
    { ruleId := "asyncapi2-unused-securityScheme", severity := Severity.info,
      path := ["components", "securitySchemes", n] }

/-- Modelled from the spec: a document is judged valid when no diagnostic of
`error` severity was produced (only error-severity diagnostics gate
pass/fail). -/
def isDocumentValid (diags : List Diagnostic) : Bool :=
  diags.all fun d => !(decide (d.severity = Severity.error))

/-- Modelled from the spec: the path reported for a selector match.  An up
marker at the end of the selector rewinds the reported path by one segment
from the matched node. -/
def reportedPath (matchedPath : List String) (hasUpMarker : Bool) : List String :=
  if hasUpMarker then matchedPath.dropLast else matchedPath

/-- Does a selector string end with the up marker? -/
def endsWithUp (s : String) : Bool :=
  decide (s.data.getLast? = some '^')

/-- Modelled from the spec: format gating of the rule execution engine.  A
rule applies to a document exactly when the document's detected version is
matched by one of the rule's formats. -/
def ruleApplicable (docVersion : String) (r : Rule) : Bool :=
  member docVersion r.formats

/-- The identifiers of the rules the engine evaluates (and hence resolves
selectors for) on a document of the given version: rules whose format range
excludes the version are silently skipped. -/
def resolvedRules (docVersion : String) (rules : List Rule) : List String :=
  (rules.filter (ruleApplicable docVersion)).map Rule.id

/-- Modelled from the spec: the rule execution engine.  `resolve` abstracts
the path-selector resolver (yielding the matched paths of a rule) and
`validate` the bound validator (yielding the violation paths for one match);
the engine filters rules by format, resolves each remaining rule's selector,
runs its validator on every match, and wraps each violation into a
diagnostic carrying the rule's identifier and severity, in
rule-declaration-then-match order. -/
def engineRun (resolve : Rule → List (List String))
    (validate : Rule → List String → List (List String))
    (docVersion : String) (rules : List Rule) : List Diagnostic :=
  (rules.filter (ruleApplicable docVersion)).flatMap fun r =>
    (resolve r).flatMap fun m =>
      (validate r m).map fun p =>
        { ruleId := r.id, severity := r.severity, path := p }

/-! Helper lemmas. -/

theorem member_iff {x : String} {l : List String} : member x l = true ↔ x ∈ l := by
  induction l with
  | nil => simp [member]
  | cons y rest ih => by_cases h : x = y <;> simp [member, h, ih]

theorem member_eq_false {x : String} {l : List String} : member x l = false ↔ x ∉ l := by
  rw [← member_iff, Bool.not_eq_true]

/-- The identifiers of the rules with `resolved: false` in their declaration. -/
def unresolvedRuleIds (rules : List Rule) : List String :=
  (rules.filter fun r => decide (r.resolved = some false)).map Rule.id

/-! Theorems. -/

/-- C9: rule identifiers are unique within each of `v2CoreRuleset`,
`v2RecommendedRuleset` and the ruleset returned by `v2SchemasRuleset`
(whatever rule body the external `asyncApi2SchemaParserRule` factory
supplies), and remain pairwise distinct across the union of the three
rulesets. -/
theorem ruleIds_unique : ∀ schemasRuleBody : Rule,
    (v2CoreRuleset.map Rule.id).Nodup ∧
    ((v2SchemasRuleset schemasRuleBody).map Rule.id).Nodup ∧
    (v2RecommendedRuleset.map Rule.id).Nodup ∧
    ((v2CoreRuleset ++ v2SchemasRuleset schemasRuleBody ++ v2RecommendedRuleset).map
      Rule.id).Nodup := by
  intro b
  have h : (v2SchemasRuleset b).map Rule.id =
      ["asyncapi2-schemas", "asyncapi2-schema-default", "asyncapi2-schema-examples"] := rfl
  refine ⟨by decide, ?_, by decide, ?_⟩
  · rw [h]; decide
  · rw [List.map_append, List.map_append, h]; decide

/-- C10: among the rules declared in the three v2 rulesets, exactly
`asyncapi2-unused-securityScheme` is declared with `resolved: false` (the
body of `asyncapi2-schemas` is supplied by an external factory; the
hypothesis records that it does not declare `resolved: false`, which holds in
the upstream implementation where it leaves `resolved` unset). -/
theorem unusedSecurityScheme_only_unresolved :
    ∀ schemasRuleBody : Rule, schemasRuleBody.resolved ≠ some false →
    unresolvedRuleIds
        (v2CoreRuleset ++ v2SchemasRuleset schemasRuleBody ++ v2RecommendedRuleset) =
      ["asyncapi2-unused-securityScheme"] := by
  intro b hb
  obtain ⟨bid, bsev, brec, bres, bfmts, bgiven⟩ := b
  unfold unresolvedRuleIds
  rw [List.filter_append, List.filter_append, List.map_append, List.map_append]
  have h₁ : (v2CoreRuleset.filter fun r => decide (r.resolved = some false)) = [] := by decide
  have h₃ : ((v2RecommendedRuleset.filter fun r => decide (r.resolved = some false)).map
      Rule.id) = ["asyncapi2-unused-securityScheme"] := by decide
  have h₂ : ((v2SchemasRuleset ⟨bid, bsev, brec, bres, bfmts, bgiven⟩).filter
      fun r => decide (r.resolved = some false)) = [] := by
    rw [List.filter_eq_nil_iff]
    intro r hr
    simp only [v2SchemasRuleset, List.mem_cons, List.not_mem_nil, or_false] at hr
    rcases hr with h | h | h <;> subst h <;> simp_all
  rw [h₁, h₂, h₃]
  rfl

/-- Witness for C10 at a concrete external rule body. -/
theorem unusedSecurityScheme_only_unresolved_witness :
    unresolvedRuleIds
        (v2CoreRuleset ++
          v2SchemasRuleset { id := "x", recommended := true, given := [] } ++
          v2RecommendedRuleset) =
      ["asyncapi2-unused-securityScheme"] :=
  unusedSecurityScheme_only_unresolved { id := "x", recommended := true, given := [] }
    (by decide)

/-- C8: the engine is deterministic — two runs over the same document tree
(same resolver and validator behavior, same detected version, same rules)
yield the same diagnostic sequence — and its output order is stable, given
by rule declaration order: the diagnostics of the first rule (or nothing,
when format gating skips it) precede those of the remaining rules. -/
theorem engine_deterministic :
    ∀ (resolve : Rule → List (List String))
      (validate : Rule → List String → List (List String))
      (docVersion : String) (rules : List Rule),
    engineRun resolve validate docVersion rules =
      engineRun resolve validate docVersion rules ∧
    ∀ r : Rule,
      engineRun resolve validate docVersion (r :: rules) =
        (if ruleApplicable docVersion r = true then
          (resolve r).flatMap fun m =>
            (validate r m).map fun p =>
              { ruleId := r.id, severity := r.severity, path := p }
        else []) ++ engineRun resolve validate docVersion rules := by
  intro resolve validate docVersion rules
  refine ⟨rfl, fun r => ?_⟩
  by_cases h : ruleApplicable docVersion r = true <;>
    simp [engineRun, List.filter_cons, h]

/-- Every diagnostic the engine emits carries the identifier of a rule the
format filter let through. -/
theorem engineRun_ruleId_mem
    (resolve : Rule → List (List String))
    (validate : Rule → List String → List (List String))
    (docVersion : String) (rules : List Rule) (d : Diagnostic)
    (h : d ∈ engineRun resolve validate docVersion rules) :
    d.ruleId ∈ resolvedRules docVersion rules := by
  simp only [engineRun, List.mem_flatMap, List.mem_filter, List.mem_map] at h
  obtain ⟨r, hr, m, _, p, _, rfl⟩ := h
  simp only [resolvedRules, List.mem_map]
  exact ⟨r, List.mem_filter.mpr hr, rfl⟩

/-- C4: `asyncapi2-message-messageId` is format-gated to versions from 2.4.0
on (`aas2AllFormats.slice(4)`): the engine evaluates it exactly on the
versions in that slice, so against a 2.0.0 document its selector is never
resolved and — whatever the resolver and validators would return — the run
contains no diagnostic of this rule. -/
theorem messageId_rule_format_gated :
    ∀ (resolve : Rule → List (List String))
      (validate : Rule → List String → List (List String)),
    (∀ v ∈ aas2AllVersions,
      ("asyncapi2-message-messageId" ∈ resolvedRules v v2RecommendedRuleset ↔
        v ∈ aas2AllVersions.drop 4)) ∧
    "asyncapi2-message-messageId" ∉ resolvedRules "2.0.0" v2RecommendedRuleset ∧
    (engineRun resolve validate "2.0.0" v2RecommendedRuleset).filter
        (fun d => decide (d.ruleId = "asyncapi2-message-messageId")) = [] := by
  intro resolve validate
  refine ⟨by decide, by decide, ?_⟩
  rw [List.filter_eq_nil_iff]
  intro d hd
  have hmem := engineRun_ruleId_mem resolve validate "2.0.0" v2RecommendedRuleset d hd
  simp only [decide_eq_true_eq]
  intro heq
  rw [heq] at hmem
  exact absurd hmem (by decide)

/-- `collectDuplicates` only depends on the membership of the seen set. -/
theorem collectDuplicates_congr {seen₁ seen₂ : List String}
    (h : ∀ v, v ∈ seen₁ ↔ v ∈ seen₂) (l : List (List String × String)) :
    collectDuplicates seen₁ l = collectDuplicates seen₂ l := by
  induction l generalizing seen₁ seen₂ with
  | nil => rfl
  | cons occ rest ih =>
      simp only [collectDuplicates]
      by_cases hv : occ.2 ∈ seen₁
      · rw [member_iff.mpr hv, member_iff.mpr ((h _).mp hv)]
        simp only [if_true]
        rw [ih h]
      · rw [member_eq_false.mpr hv, member_eq_false.mpr (fun c => hv ((h _).mpr c))]
        simp only [Bool.false_eq_true, if_false]
        exact ih (fun v => by simp [List.mem_cons, h v])

/-- A prefix of occurrences whose values are fresh (mutually distinct and
unseen) produces no duplicate reports; it only extends the seen set. -/
theorem collectDuplicates_clean {seen : List String} {a r : List (List String × String)}
    (hnd : (a.map Prod.snd).Nodup) (hdisj : ∀ x ∈ a.map Prod.snd, x ∉ seen) :
    collectDuplicates seen (a ++ r) =
      collectDuplicates ((a.map Prod.snd).reverse ++ seen) r := by
  induction a generalizing seen with
  | nil => simp
  | cons occ a ih =>
      simp only [List.cons_append, collectDuplicates]
      have h0 : member occ.2 seen = false :=
        member_eq_false.mpr (hdisj _ (by simp))
      rw [h0]
      simp only [Bool.false_eq_true, if_false, List.append_eq]
      simp only [List.map_cons, List.nodup_cons] at hnd
      have hdisjA : ∀ x ∈ a.map Prod.snd, x ∉ occ.2 :: seen := by
        intro x hx
        simp only [List.mem_cons, not_or]
        exact ⟨fun hxe => hnd.1 (hxe ▸ hx), hdisj x (by simp [hx])⟩
      rw [ih hnd.2 hdisjA]
      apply collectDuplicates_congr
      intro v
      simp only [List.map_cons, List.reverse_cons, List.mem_append, List.mem_cons,
        List.mem_reverse, List.mem_singleton]
      tauto

/-- Occurrences with mutually distinct, unseen values produce no reports. -/
theorem collectDuplicates_eq_nil {seen : List String} {l : List (List String × String)}
    (hnd : (l.map Prod.snd).Nodup) (hdisj : ∀ x ∈ l.map Prod.snd, x ∉ seen) :
    collectDuplicates seen l = [] := by
  have h := @collectDuplicates_clean seen l [] hnd hdisj
  simpa [collectDuplicates] using h

/-- C1: when exactly two occurrences (in document order) share an
`operationId` value and every other value is distinct, the uniqueness
validator reports exactly one diagnostic, at the path of the second
occurrence; when all values are distinct it reports nothing. -/
theorem operationIdUniqueness_spec :
    (∀ (a b c : List (List String × String)) (p₁ p₂ : List String) (v : String),
        ((a ++ b ++ c).map Prod.snd).Nodup →
        v ∉ (a ++ b ++ c).map Prod.snd →
        operationIdUniqueness (a ++ ((p₁, v) :: b) ++ ((p₂, v) :: c)) =
          [{ ruleId := "asyncapi2-operation-operationId-uniqueness",
             severity := Severity.error, path := p₂ }]) ∧
    (∀ occurrences : List (List String × String),
        (occurrences.map Prod.snd).Nodup → operationIdUniqueness occurrences = []) := by
  constructor
  · intro a b c p₁ p₂ v hnodup hv
    simp only [List.map_append] at hnodup hv
    rw [List.nodup_append, List.nodup_append] at hnodup
    obtain ⟨⟨hA, hB, hAB⟩, hC, hABC⟩ := hnodup
    simp only [List.mem_append, not_or] at hv
    obtain ⟨⟨hvA, hvB⟩, hvC⟩ := hv
    unfold operationIdUniqueness
    rw [List.append_assoc]
    rw [@collectDuplicates_clean [] a (((p₁, v) :: b) ++ ((p₂, v) :: c)) hA
      (fun x _ => List.not_mem_nil x)]
    rw [List.cons_append]
    simp only [List.append_nil, collectDuplicates]
    rw [member_eq_false.mpr (by simp [hvA])]
    simp only [Bool.false_eq_true, if_false]
    have hdisjB : ∀ x ∈ b.map Prod.snd, x ∉ v :: (a.map Prod.snd).reverse := by
      intro x hx
      simp only [List.mem_cons, List.mem_reverse, not_or]
      exact ⟨fun hxv => hvB (hxv ▸ hx), fun hxa => hAB.symm hx hxa⟩
    rw [@collectDuplicates_clean (v :: (a.map Prod.snd).reverse) b ((p₂, v) :: c) hB hdisjB]
    simp only [collectDuplicates]
    rw [member_iff.mpr (by simp)]
    simp only [if_true]
    have hdisjC : ∀ x ∈ c.map Prod.snd,
        x ∉ (b.map Prod.snd).reverse ++ v :: (a.map Prod.snd).reverse := by
      intro x hx
      simp only [List.mem_append, List.mem_cons, List.mem_reverse, not_or]
      refine ⟨fun hxb => hABC.symm hx (by simp [hxb]), fun hxv => hvC (hxv ▸ hx),
        fun hxa => hABC.symm hx (by simp [hxa])⟩
    rw [collectDuplicates_eq_nil hC hdisjC]
    rfl
  · intro occurrences hnd
    unfold operationIdUniqueness
    rw [collectDuplicates_eq_nil hnd (fun x _ => List.not_mem_nil x)]
    rfl

/-- Witness for C1: a document with two operations sharing `operationId`
"doIt" yields exactly the one diagnostic at the second occurrence's path; a
document with distinct ids yields none. -/
theorem operationIdUniqueness_spec_witness :
    operationIdUniqueness
        [(["channels", "one", "publish"], "doIt"),
         (["channels", "two", "subscribe"], "doIt")] =
      [{ ruleId := "asyncapi2-operation-operationId-uniqueness",
         severity := Severity.error, path := ["channels", "two", "subscribe"] }] ∧
    operationIdUniqueness
        [(["channels", "one", "publish"], "sendOne"),
         (["channels", "two", "subscribe"], "sendTwo")] = [] := by
  constructor
  · exact operationIdUniqueness_spec.1 [] [] [] ["channels", "one", "publish"]
      ["channels", "two", "subscribe"] "doIt" (by decide) (by decide)
  · exact operationIdUniqueness_spec.2 _ (by decide)

theorem undefinedVariable_injective : Function.Injective VarViolation.undefinedVariable := by
  intro x y h
  simpa using h

theorem redundantVariable_injective : Function.Injective VarViolation.redundantVariable := by
  intro x y h
  simpa using h

/-- A declared key absent from the template's tokens is reported redundant
exactly once (declared maps have distinct keys). -/
theorem reconcile_count_redundant {tokens declared : List String} {k : String}
    (hnd : declared.Nodup) (hk : k ∈ declared) (hkt : k ∉ tokens) :
    (reconcile tokens declared).count (VarViolation.redundantVariable k) = 1 := by
  unfold reconcile
  rw [List.count_append]
  have h₁ : ((tokens.filter fun t => !(member t declared)).map
      VarViolation.undefinedVariable).count (VarViolation.redundantVariable k) = 0 := by
    rw [List.count_eq_zero]
    simp
  have hcond : (!(member k tokens)) = true := by
    rw [member_eq_false.mpr hkt]
    rfl
  have h₂ : ((declared.filter fun t => !(member t tokens)).map
      VarViolation.redundantVariable).count (VarViolation.redundantVariable k) = 1 := by
    rw [List.count_map_of_injective _ _ redundantVariable_injective,
      @List.count_filter String _ _ (fun t => !(member t tokens)) k declared hcond]
    exact List.count_eq_one_of_mem hnd hk
  rw [h₁, h₂]

/-- A token occurring in the template with no declared key is reported
undefined once per occurrence. -/
theorem reconcile_count_undefined {tokens declared : List String} {t : String}
    (ht : t ∉ declared) :
    (reconcile tokens declared).count (VarViolation.undefinedVariable t) = tokens.count t := by
  unfold reconcile
  rw [List.count_append]
  have hcond : (!(member t declared)) = true := by
    rw [member_eq_false.mpr ht]
    rfl
  have h₁ : ((tokens.filter fun x => !(member x declared)).map
      VarViolation.undefinedVariable).count (VarViolation.undefinedVariable t) =
      tokens.count t := by
    rw [List.count_map_of_injective _ _ undefinedVariable_injective,
      @List.count_filter String _ _ (fun x => !(member x declared)) t tokens hcond]
  have h₂ : ((declared.filter fun x => !(member x tokens)).map
      VarViolation.redundantVariable).count (VarViolation.undefinedVariable t) = 0 := by
    rw [List.count_eq_zero]
    simp
  rw [h₁, h₂]
  exact Nat.add_zero _

/-- C2: the reconciliation validators report both directions, one violation
per offending key or token: a declared variable/parameter never referenced
in the template yields exactly one redundant-variable violation, and each
occurrence of a template token with no declared key yields an
undefined-variable violation; in particular `"/users/\x7bid\x7d"` with parameters
`id, extra` yields exactly the one redundant violation for `extra`, and
`"/users/\x7bid\x7d/\x7bmissing\x7d"` with parameter `id` yields exactly the one
undefined violation for `missing`. -/
theorem variableReconciliation_spec :
    (∀ (url : String) (declaredVariables : List String) (k : String),
        declaredVariables.Nodup → k ∈ declaredVariables → k ∉ extractTokens url →
        (serverVariables url declaredVariables).count (VarViolation.redundantVariable k) = 1) ∧
    (∀ (url : String) (declaredVariables : List String) (t : String),
        t ∉ declaredVariables →
        (serverVariables url declaredVariables).count (VarViolation.undefinedVariable t) =
          (extractTokens url).count t) ∧
    (∀ (address : String) (declaredParameters : List String) (k : String),
        declaredParameters.Nodup → k ∈ declaredParameters → k ∉ extractTokens address →
        (channelParameters address declaredParameters).count
          (VarViolation.redundantVariable k) = 1) ∧
    (∀ (address : String) (declaredParameters : List String) (t : String),
        t ∉ declaredParameters →
        (channelParameters address declaredParameters).count
          (VarViolation.undefinedVariable t) = (extractTokens address).count t) ∧
    channelParameters "/users/\x7bid\x7d" ["id", "extra"] =
      [VarViolation.redundantVariable "extra"] ∧
    channelParameters "/users/\x7bid\x7d/\x7bmissing\x7d" ["id"] =
      [VarViolation.undefinedVariable "missing"] :=
  ⟨fun _ _ _ hnd hk hkt => reconcile_count_redundant hnd hk hkt,
   fun _ _ _ ht => reconcile_count_undefined ht,
   fun _ _ _ hnd hk hkt => reconcile_count_redundant hnd hk hkt,
   fun _ _ _ ht => reconcile_count_undefined ht,
   by decide, by decide⟩

/-- Witness for C2: the counting statements instantiated on the claim's two
concrete addresses. -/
theorem variableReconciliation_spec_witness :
    (channelParameters "/users/\x7bid\x7d" ["id", "extra"]).count
      (VarViolation.redundantVariable "extra") = 1 ∧
    (channelParameters "/users/\x7bid\x7d/\x7bmissing\x7d" ["id"]).count
      (VarViolation.undefinedVariable "missing") =
      (extractTokens "/users/\x7bid\x7d/\x7bmissing\x7d").count "missing" ∧
    (serverVariables "\x7bstage\x7d.example.com" ["stage", "region"]).count
      (VarViolation.redundantVariable "region") = 1 :=
  ⟨variableReconciliation_spec.2.2.1 "/users/\x7bid\x7d" ["id", "extra"] "extra"
      (by decide) (by decide) (by decide),
   variableReconciliation_spec.2.2.2.1 "/users/\x7bid\x7d/\x7bmissing\x7d" ["id"] "missing"
      (by decide),
   variableReconciliation_spec.1 "\x7bstage\x7d.example.com" ["stage", "region"] "region"
      (by decide) (by decide) (by decide)⟩

/-- Membership of an undefined-reference violation in one entry's result. -/
theorem mem_entryViolations_undef {schemes : List SecurityScheme}
    {e : String × List String} {n : String} :
    SecViolation.undefinedReference n ∈ entryViolations schemes e ↔
      n = e.1 ∧ lookupScheme schemes e.1 = none := by
  unfold entryViolations
  cases hl : lookupScheme schemes e.1 with
  | none => simp
  | some s =>
      by_cases hc : (!e.2.isEmpty && !scopesAllowed s.type) = true <;> simp [hc]

/-- Membership of a disallowed-scopes violation in one entry's result. -/
theorem mem_entryViolations_disallowed {schemes : List SecurityScheme}
    {e : String × List String} {n : String} :
    SecViolation.disallowedScopes n ∈ entryViolations schemes e ↔
      n = e.1 ∧ e.2 ≠ [] ∧
        ∃ s, lookupScheme schemes e.1 = some s ∧ scopesAllowed s.type = false := by
  unfold entryViolations
  cases hl : lookupScheme schemes e.1 with
  | none => simp
  | some s =>
      by_cases hc : (!e.2.isEmpty && !scopesAllowed s.type) = true
      · have hcb := hc
        simp only [Bool.and_eq_true, Bool.not_eq_true'] at hcb
        have hne : e.2 ≠ [] := by
          intro h2
          rw [h2] at hcb
          exact absurd hcb.1 (by simp)
        simp [hc, hne, hcb.2]
      · have hcb := hc
        simp only [Bool.and_eq_true, Bool.not_eq_true', not_and] at hcb
        simp [hc]
        intro _ hne
        have hie : e.2.isEmpty = false := by
          cases hx : e.2 with
          | nil => exact absurd hx hne
          | cons a l => rfl
        cases hb : scopesAllowed s.type with
        | false => exact absurd hb (hcb hie)
        | true => rfl

/-- Every undefined-reference violation of the security validator comes from
a requirement entry whose name has no declared scheme, and conversely. -/
theorem mem_security_undef {schemes : List SecurityScheme}
    {entries : List (String × List String)} {n : String} :
    SecViolation.undefinedReference n ∈ security schemes entries ↔
      (∃ scopes, (n, scopes) ∈ entries) ∧ lookupScheme schemes n = none := by
  induction entries with
  | nil => simp [security]
  | cons e rest ih =>
      simp only [security, List.mem_append, ih, mem_entryViolations_undef, List.mem_cons]
      constructor
      · rintro (⟨rfl, hl⟩ | ⟨⟨sc, hsc⟩, hl⟩)
        · exact ⟨⟨e.2, Or.inl Prod.mk.eta⟩, hl⟩
        · exact ⟨⟨sc, Or.inr hsc⟩, hl⟩
      · rintro ⟨⟨sc, hsc | hsc⟩, hl⟩
        · have hn : n = e.1 := congrArg Prod.fst hsc
          exact Or.inl ⟨hn, hn ▸ hl⟩
        · exact Or.inr ⟨⟨sc, hsc⟩, hl⟩

/-- Every disallowed-scopes violation of the security validator comes from a
non-empty-scoped entry referencing a scheme whose type forbids scopes, and
conversely. -/
theorem mem_security_disallowed {schemes : List SecurityScheme}
    {entries : List (String × List String)} {n : String} :
    SecViolation.disallowedScopes n ∈ security schemes entries ↔
      ∃ scopes, (n, scopes) ∈ entries ∧ scopes ≠ [] ∧
        ∃ s, lookupScheme schemes n = some s ∧ scopesAllowed s.type = false := by
  induction entries with
  | nil => simp [security]
  | cons e rest ih =>
      simp only [security, List.mem_append, ih, mem_entryViolations_disallowed,
        List.mem_cons]
      constructor
      · rintro (⟨rfl, hne, s, hl, hal⟩ | ⟨sc, hsc, hne, hs⟩)
        · exact ⟨e.2, Or.inl Prod.mk.eta, hne, s, hl, hal⟩
        · exact ⟨sc, Or.inr hsc, hne, hs⟩
      · rintro ⟨sc, hsc | hsc, hne, s, hl, hal⟩
        · have hn : n = e.1 := congrArg Prod.fst hsc
          have hsc2 : sc = e.2 := congrArg Prod.snd hsc
          exact Or.inl ⟨hn, hsc2 ▸ hne, s, hn ▸ hl, hal⟩
        · exact Or.inr ⟨sc, hsc, hne, s, hl, hal⟩

/-- C3: the security validator reports an undefined-reference violation
exactly for requirement entries whose scheme name has no declaration among
the document's security-scheme components, and a disallowed-scopes violation
exactly for entries carrying a non-empty scope list whose referenced
scheme's declared type is neither `oauth2` nor `openIdConnect`; all
violations are returned as data by a total function, never thrown. -/
theorem security_spec :
    ∀ (schemes : List SecurityScheme) (entries : List (String × List String)) (n : String),
    (SecViolation.undefinedReference n ∈ security schemes entries ↔
      (∃ scopes, (n, scopes) ∈ entries) ∧ lookupScheme schemes n = none) ∧
    (SecViolation.disallowedScopes n ∈ security schemes entries ↔
      ∃ scopes, (n, scopes) ∈ entries ∧ scopes ≠ [] ∧
        ∃ s, lookupScheme schemes n = some s ∧ scopesAllowed s.type = false) :=
  fun _ _ _ => ⟨mem_security_undef, mem_security_disallowed⟩

/-- Witness for C3: a reference to an undeclared scheme is reported, and a
non-empty scope list on an `http`-typed scheme is reported. -/
theorem security_spec_witness :
    SecViolation.undefinedReference "missing" ∈
      security [{ name := "petstore", type := "http" }] [("missing", [])] ∧
    SecViolation.disallowedScopes "petstore" ∈
      security [{ name := "petstore", type := "http" }] [("petstore", ["read"])] :=
  ⟨(security_spec [{ name := "petstore", type := "http" }] [("missing", [])]
        "missing").1.mpr ⟨⟨[], by decide⟩, by decide⟩,
   (security_spec [{ name := "petstore", type := "http" }] [("petstore", ["read"])]
        "petstore").2.mpr
      ⟨["read"], by decide, by decide,
        { name := "petstore", type := "http" }, by decide, by decide⟩⟩

/-- C5: the schema-default and schema-examples rules invoke the external
conformance checker only on values whose enclosing message object has no
`schemaFormat` override (the selector filter `@.schemaFormat === void 0`),
and surface every reported conformance failure as an error-severity
diagnostic of the rule; in particular a payload schema `type: integer` with
`default: "x"` yields exactly one error diagnostic and with `default: 5`
yields none. -/
theorem schemaValidation_spec :
    (∀ fields : List (String × Json),
        (lookupField fields "schemaFormat").isSome = true →
        schemaDefaultInvocations (Json.object fields) = [] ∧
        schemaExamplesInvocations (Json.object fields) = []) ∧
    (∀ message : Json,
        (schemaDefaultDiagnostics message).length =
          ((schemaDefaultInvocations message).map
            (fun si => (validateInstance si.1 si.2).length)).sum ∧
        (schemaExamplesDiagnostics message).length =
          ((schemaExamplesInvocations message).map
            (fun si => (validateInstance si.1 si.2).length)).sum) ∧
    (∀ message : Json, ∀ d ∈ schemaDefaultDiagnostics message,
        d.severity = Severity.error ∧ d.ruleId = "asyncapi2-schema-default") ∧
    (∀ message : Json, ∀ d ∈ schemaExamplesDiagnostics message,
        d.severity = Severity.error ∧ d.ruleId = "asyncapi2-schema-examples") ∧
    schemaDefaultDiagnostics (Json.object [("payload", Json.object
        [("type", Json.string "integer"), ("default", Json.string "x")])]) =
      [{ ruleId := "asyncapi2-schema-default", severity := Severity.error,
         path := ["type"] }] ∧
    schemaDefaultDiagnostics (Json.object [("payload", Json.object
        [("type", Json.string "integer"), ("default", Json.number 5)])]) = [] := by
  refine ⟨?_, ?_, ?_, ?_, rfl, rfl⟩
  · intro fields h
    constructor <;> simp [schemaDefaultInvocations, schemaExamplesInvocations, h]
  · intro message
    constructor
    · simp only [schemaDefaultDiagnostics, List.length_flatMap]
      exact congrArg List.sum
        (List.map_congr_left fun si _ => by simp [Function.comp, List.length_map])
    · simp only [schemaExamplesDiagnostics, List.length_flatMap]
      exact congrArg List.sum
        (List.map_congr_left fun si _ => by simp [Function.comp, List.length_map])
  · intro message d hd
    simp only [schemaDefaultDiagnostics, List.mem_flatMap, List.mem_map] at hd
    obtain ⟨si, _, v, _, rfl⟩ := hd
    exact ⟨rfl, rfl⟩
  · intro message d hd
    simp only [schemaExamplesDiagnostics, List.mem_flatMap, List.mem_map] at hd
    obtain ⟨si, _, v, _, rfl⟩ := hd
    exact ⟨rfl, rfl⟩

/-- Witness for C5: a message carrying a `schemaFormat` override is filtered
out, so the checker is never invoked on its payload despite the
non-conforming `default`. -/
theorem schemaValidation_spec_witness :
    schemaDefaultInvocations (Json.object
      [("schemaFormat", Json.string "application/vnd.apache.avro"),
       ("payload", Json.object [("type", Json.string "integer"),
          ("default", Json.string "x")])]) = [] ∧
    schemaExamplesInvocations (Json.object
      [("schemaFormat", Json.string "application/vnd.apache.avro"),
       ("payload", Json.object [("type", Json.string "integer"),
          ("default", Json.string "x")])]) = [] :=
  schemaValidation_spec.1
    [("schemaFormat", Json.string "application/vnd.apache.avro"),
     ("payload", Json.object [("type", Json.string "integer"),
        ("default", Json.string "x")])] rfl

/-- C6: every `given` selector of `asyncapi2-schema-default` ends with the
up marker `^` right after the `default` segment, so each match is reported
one segment above the matched `default` leaf — at the enclosing schema
object's path, never at the `default` value's own path. -/
theorem schemaDefault_upMarker_spec :
    (∀ s ∈ schemaDefaultGiven,
        endsWithUp s = true ∧ List.isSuffixOf ".default^".data s.data = true) ∧
    (∀ schemaPath : List String,
        reportedPath (schemaPath ++ ["default"]) true = schemaPath ∧
        reportedPath (schemaPath ++ ["default"]) true ≠ schemaPath ++ ["default"]) := by
  constructor
  · decide
  · intro schemaPath
    constructor
    · rw [reportedPath, if_pos rfl]
      exact List.dropLast_concat
    · rw [reportedPath, if_pos rfl, List.dropLast_concat]
      intro h
      have hlen := congrArg List.length h
      simp at hlen

/-- Witness for C6 on the components-schemas selector and a concrete schema
path. -/
theorem schemaDefault_upMarker_witness :
    (endsWithUp "$.components.schemas.*.default^" = true ∧
      List.isSuffixOf ".default^".data "$.components.schemas.*.default^".data = true) ∧
    reportedPath (["components", "schemas", "mySchema"] ++ ["default"]) true =
      ["components", "schemas", "mySchema"] :=
  ⟨schemaDefault_upMarker_spec.1 "$.components.schemas.*.default^" (by decide),
   (schemaDefault_upMarker_spec.2 ["components", "schemas", "mySchema"]).1⟩

theorem unusedDiag_injective : Function.Injective (fun n =>
    ({ ruleId := "asyncapi2-unused-securityScheme", severity := Severity.info,
       path := ["components", "securitySchemes", n] } : Diagnostic)) := by
  intro a b h
  simpa using h

/-- C7: the `asyncapi2-unused-securityScheme` rule is declared with severity
`info`; the validator emits exactly one diagnostic per declared-but-never-
referenced scheme, every diagnostic it emits has severity `info`, and
info-severity diagnostics never flip a document that has no error-severity
diagnostics to invalid. -/
theorem unusedSecurityScheme_spec :
    (v2RecommendedRuleset.find? (fun r =>
        decide (r.id = "asyncapi2-unused-securityScheme"))).map Rule.severity =
      some Severity.info ∧
    (∀ (declared referenced : List String) (n : String),
        declared.Nodup → n ∈ declared → n ∉ referenced →
        (unusedSecuritySchemes declared referenced).count
          { ruleId := "asyncapi2-unused-securityScheme", severity := Severity.info,
            path := ["components", "securitySchemes", n] } = 1) ∧
    (∀ declared referenced : List String,
        ∀ d ∈ unusedSecuritySchemes declared referenced,
        d.severity = Severity.info) ∧
    (∀ diags extra : List Diagnostic,
        (∀ d ∈ extra, d.severity = Severity.info) →
        isDocumentValid diags = true → isDocumentValid (diags ++ extra) = true) := by
  refine ⟨by decide, ?_, ?_, ?_⟩
  · intro declared referenced n hnd hk hnr
    have hcond : (!(member n referenced)) = true := by
      rw [member_eq_false.mpr hnr]
      rfl
    unfold unusedSecuritySchemes
    rw [List.count_map_of_injective _ _ unusedDiag_injective,
      @List.count_filter String _ _ (fun x => !(member x referenced)) n declared hcond]
    exact List.count_eq_one_of_mem hnd hk
  · intro declared referenced d hd
    simp only [unusedSecuritySchemes, List.mem_map] at hd
    obtain ⟨n, _, rfl⟩ := hd
    rfl
  · intro diags extra hinfo hvalid
    rw [isDocumentValid, List.all_append]
    rw [isDocumentValid] at hvalid
    rw [hvalid]
    have hextra : extra.all (fun d => !(decide (d.severity = Severity.error))) = true :=
      List.all_eq_true.mpr fun d hd => by rw [hinfo d hd]; rfl
    rw [hextra]
    rfl

/-- Witness for C7: one unused scheme among two declared yields count one,
and appending its info diagnostics to a clean run keeps the document valid. -/
theorem unusedSecurityScheme_witness :
    (unusedSecuritySchemes ["petstore", "spare"] ["petstore"]).count
      { ruleId := "asyncapi2-unused-securityScheme", severity := Severity.info,
        path := ["components", "securitySchemes", "spare"] } = 1 ∧
    isDocumentValid ([] ++ unusedSecuritySchemes ["spare"] []) = true :=
  ⟨unusedSecurityScheme_spec.2.1 ["petstore", "spare"] ["petstore"] "spare"
      (by decide) (by decide) (by decide),
   unusedSecurityScheme_spec.2.2.2 [] (unusedSecuritySchemes ["spare"] [])
      (unusedSecurityScheme_spec.2.2.1 ["spare"] []) rfl⟩

end AsyncAPI
